import Mathlib

/-!
# Verification of the AI-Arkitekt analysis engine

A shallow embedding of the heuristic codebase-classification and
recommendation-ranking engine of the AI-Arkitekt repository, together with
proofs and refutations of the specified properties.

Conventions used throughout:
* JavaScript numbers are modelled as `ℚ` (all scoring arithmetic in the
  source is exact decimal arithmetic on small values).
* A fallible file read (`fs.readFileSync` inside `try`/`catch`) is modelled
  as `Except Unit String`; code that lets the exception propagate is
  modelled in the `Except` monad.
* `Array.prototype.sort` with comparator `(a, b) => keyOf b - keyOf a` is a
  stable descending sort; it is modelled by `jsSortDesc`, insertion sort
  with the relation `keyOf b ≤ keyOf a`, which is the unique stable
  descending sort by `keyOf`.
* `String.prototype.includes(p)` is `jsIncludes`; a case-insensitive
  regular-expression test `/a|b.*c/i.test(s)` over alternatives of literal
  fragments separated by `.*` is `testPat`.
-/

/-- Find the first occurrence of `pat` in `cs` and return the remainder of
`cs` after that occurrence (`none` if `pat` does not occur). -/
def findAfter (pat : List Char) : List Char → Option (List Char)
  | [] => if pat.isEmpty then some [] else none
  | c :: rest =>
    if pat.isPrefixOf (c :: rest) then some ((c :: rest).drop pat.length)
    else findAfter pat rest

/-- JavaScript `hay.includes(pat)` (case sensitive substring test). -/
def jsIncludes (hay pat : String) : Bool :=
  (findAfter pat.data hay.data).isSome

/-- Lower-cased character list of a string, for case-insensitive matching. -/
def lcs (s : String) : List Char :=
  s.data.map Char.toLower

/-- Match a `.*`-separated sequence of literal fragments (already
lower-cased input): `seqHolds cs [a, b]` is the test of `/a.*b/`. -/
def seqHolds : List Char → List String → Bool
  | _, [] => true
  | cs, p :: ps =>
    match findAfter (lcs p) cs with
    | none => false
    | some rest => seqHolds rest ps

/-- A source regular expression of the shape used by the analyzers:
an alternation whose alternatives are sequences of literal fragments
separated by `.*` (e.g. `/paypal|manual.*payment/i` is
`[["paypal"], ["manual", "payment"]]`). -/
abbrev JsRegex := List (List String)

/-- Case-insensitive test of such a regular expression on a string,
modelling `regex.test(content)` for the `/i` regexes of the source. -/
def testPat (p : JsRegex) (content : String) : Bool :=
  p.any fun alts => seqHolds (lcs content) alts

/-- JavaScript `Math.round` (round half toward positive infinity). -/
def jsRound (q : ℚ) : ℚ :=
  ((⌊q + 1/2⌋ : ℤ) : ℚ)

/-- `Math.round(q * 10) / 10`: rounding to one decimal, as in the advanced
analyzer's ML scoring. -/
def round1 (q : ℚ) : ℚ :=
  jsRound (q * 10) / 10

/-- Number of non-overlapping occurrences of `pat` in `cs`, fuelled
recursion (the fuel is the length of `cs`, which suffices because every
step consumes at least one character).  Models the length of the match
array of a global regex over a literal fragment. -/
def countOccAux : ℕ → List Char → List Char → ℕ
  | 0, _, _ => 0
  | _ + 1, _, [] => 0
  | fuel + 1, pat, c :: rest =>
    if pat.isPrefixOf (c :: rest) && !pat.isEmpty then
      1 + countOccAux fuel pat ((c :: rest).drop pat.length)
    else
      countOccAux fuel pat rest

/-- Non-overlapping occurrence count of `pat` in `cs`. -/
def countOcc (pat cs : List Char) : ℕ :=
  countOccAux cs.length pat cs

/-- Case-insensitive global match count of an alternation of literal
fragments, `(content.match(/a|b|c/gi) || []).length`.  Summing the
per-alternative counts abstracts the left-to-right scan of the regex
engine; it agrees with it on the inputs used in the theorems below (in
particular it is `0` exactly when no alternative occurs). -/
def ciCountAlts (alts : List String) (s : String) : ℕ :=
  (alts.map fun a => countOcc (lcs a) (lcs s)).sum

/-- Split a character list at a separator character (the segments between
separators, including empty ones — the semantics of JavaScript
`s.split(sep)` for a one-character separator). -/
def splitChar (sep : Char) : List Char → List (List Char)
  | [] => [[]]
  | c :: rest =>
    match splitChar sep rest with
    | [] => [[]]
    | h :: t => if c == sep then [] :: h :: t else (c :: h) :: t

/-- JavaScript `s.split('\n')`. -/
def jsSplitLines (s : String) : List String :=
  (splitChar '\n' s.data).map fun cs => String.mk cs

/-- JavaScript `s.split('\n').length`. -/
def jsLineCount (s : String) : ℕ :=
  (splitChar '\n' s.data).length

section StableSort

variable {α : Type} (key : α → ℚ)

/-- The ordering relation of a JavaScript sort with comparator
`(a, b) => key b - key a`: `a` may stay before `b` iff `key b ≤ key a`. -/
def keyDescRel : α → α → Prop := fun a b => key b ≤ key a

instance : DecidableRel (keyDescRel key) := fun a b =>
  inferInstanceAs (Decidable (key b ≤ key a))

instance : IsTotal α (keyDescRel key) :=
  ⟨fun a b => le_total (key b) (key a)⟩

instance : IsTrans α (keyDescRel key) :=
  ⟨fun _ _ _ h1 h2 => le_trans h2 h1⟩

/-- `array.sort((a, b) => key b - key a)`: the stable descending sort by
`key`, realized as insertion sort with `keyDescRel`. -/
def jsSortDesc (l : List α) : List α :=
  List.insertionSort (keyDescRel key) l

theorem jsSortDesc_sorted (l : List α) :
    (jsSortDesc key l).Sorted (keyDescRel key) :=
  List.sorted_insertionSort _ l

theorem jsSortDesc_perm (l : List α) : List.Perm (jsSortDesc key l) l :=
  List.perm_insertionSort _ l

theorem jsSortDesc_mem {l : List α} {x : α} :
    x ∈ jsSortDesc key l ↔ x ∈ l :=
  List.mem_insertionSort _

theorem jsSortDesc_length (l : List α) :
    (jsSortDesc key l).length = l.length :=
  List.length_insertionSort _ l

theorem pairwise_filter_eq_key (l : List α) (q : ℚ) :
    (l.filter fun a => key a == q).Pairwise (keyDescRel key) := by
  induction l with
  | nil => simp
  | cons x xs ih =>
    by_cases h : key x = q
    · rw [List.filter_cons_of_pos (by simpa using h)]
      refine List.pairwise_cons.2 ⟨?_, ih⟩
      intro b hb
      have hb' : key b = q := by
        have := List.of_mem_filter hb
        simpa using this
      simp [keyDescRel, hb', h]
    · rwa [List.filter_cons_of_neg (by simpa using h)]

/-- Stability of the JavaScript sort: elements with any given key value
appear in the output in exactly their input order. -/
theorem jsSortDesc_filter_eq (l : List α) (q : ℚ) :
    ((jsSortDesc key l).filter fun a => key a == q) =
      (l.filter fun a => key a == q) := by
  have hpair := pairwise_filter_eq_key key l q
  have hsub : List.Sublist (l.filter fun a => key a == q) (jsSortDesc key l) :=
    List.sublist_insertionSort hpair (List.filter_sublist l)
  have hsub2 : List.Sublist (l.filter fun a => key a == q)
      ((jsSortDesc key l).filter fun a => key a == q) := by
    have h := hsub.filter (fun a => key a == q)
    rwa [List.filter_filter, show
        (fun a => (key a == q) && (key a == q)) = fun a => key a == q from
          funext fun a => Bool.and_self _] at h
  have hlen : ((jsSortDesc key l).filter fun a => key a == q).length =
      (l.filter fun a => key a == q).length :=
    ((jsSortDesc_perm key l).filter _).length_eq
  exact (hsub2.eq_of_length hlen.symm).symm

end StableSort

/-!
## The analyzer fallback chain (`src/server.js`)

The `/upload` and `/analyze-github` handlers run five strategies in nested
`try`/`catch` blocks: code-replacement, deep, intelligent, enhanced, basic.
Each strategy either produces a result or throws; on a throw the next
strategy runs; the error of the innermost (basic) strategy propagates to
the handler's outer `catch`, which is what the caller sees.
-/

namespace Server

/-- The nested `try`/`catch` fallback chain of `app.post('/upload')` and
`app.post('/analyze-github')`, over the outcomes of the five strategies. -/
def analyzerChain {α : Type} (r1 r2 r3 r4 r5 : Except String α) :
    Except String α :=
  match r1 with
  | .ok v => .ok v
  | .error _ =>
    match r2 with
    | .ok v => .ok v
    | .error _ =>
      match r3 with
      | .ok v => .ok v
      | .error _ =>
        match r4 with
        | .ok v => .ok v
        | .error _ => r5

end Server

/-!
## Shared data model

`Rec` is one entry of the provider catalog
(`data/comprehensive-api-database.json`, a static read-only dataset; only
the fields the engine reads are modelled).  `Sugg` is a suggestion record
as produced by the finding generators; the rankers of the three analyzer
variants read `impact`, `effort`, `confidence`, `estimatedHours`,
`category` and `id`, and write `score` and `priority`.
-/

/-- A provider-catalog entry (the fields read by the engine). -/
structure Rec where
  name : String := ""
  company : String := ""
  description : String := ""
  pricing : String := ""
  business_impact : String := ""
  implementation_time : String := ""
  complexity : String := ""
  roi : String := ""
  category : String := ""
  use_cases : List String := []
deriving DecidableEq, Repr

/-- The provider catalog, grouped by section as in the JSON dataset. -/
structure ApiDatabase where
  payments : List Rec := []
  authentication : List Rec := []
  analytics : List Rec := []
  communication : List Rec := []
  search : List Rec := []
  media_storage : List Rec := []
  monitoring : List Rec := []
  ai_ml : List Rec := []
deriving DecidableEq, Repr

/-- A suggestion (finding) record as built by the generators and decorated
by the rankers. -/
structure Sugg where
  id : String := ""
  title : String := ""
  category : String := ""
  impact : ℚ := 0
  effort : ℚ := 0
  confidence : ℚ := 0
  estimatedHours : ℚ := 0
  providers : List Rec := []
  score : ℚ := 0
  priority : String := ""
deriving DecidableEq, Repr

/-- The inferred business context (the fields read by the generators and
rankers: `type` and `audience`). -/
structure BCtx where
  type : String := "unknown"
  audience : String := "unknown"
deriving DecidableEq, Repr

namespace CodeAnalyzer

/-- `analyzer.js` `rankSuggestions` map step:
`score = (impact * 2 - effort) / estimatedHours * 10`. -/
def scored (s : Sugg) : Sugg :=
  { s with score := (s.impact * 2 - s.effort) / s.estimatedHours * 10 }

/-- `analyzer.js` `rankSuggestions`: map score, sort descending by score,
`slice(0, 10)`. -/
def rankSuggestions (l : List Sugg) : List Sugg :=
  (jsSortDesc (fun s => s.score) (l.map scored)).take 10

end CodeAnalyzer

namespace EnhancedAnalyzerSimple

/-- `enhanced-analyzer-simple.js` `rankSuggestions` map step:
`score = (impact * 2 - effort) * confidence`, and a priority label. -/
def scored (s : Sugg) : Sugg :=
  { s with
    score := (s.impact * 2 - s.effort) * s.confidence
    priority :=
      if s.impact ≥ 8 then "high" else if s.impact ≥ 6 then "medium"
      else "low" }

/-- `enhanced-analyzer-simple.js` `rankSuggestions`: map score then sort
descending by score (no truncation). -/
def rankSuggestions (l : List Sugg) : List Sugg :=
  jsSortDesc (fun s => s.score) (l.map scored)

end EnhancedAnalyzerSimple

namespace EnhancedAnalyzer

/-- `enhanced-analyzer.js` `getBusinessContextBonus`: +5 for an e-commerce
context when the category contains `business` or the id contains
`personalization`; +3 for a SaaS context when the category contains `ai`
or the id contains `analytics`. -/
def getBusinessContextBonus (s : Sugg) (ctx : BCtx) : ℚ :=
  (if (ctx.type == "ecommerce") &&
      (jsIncludes s.category "business" || jsIncludes s.id "personalization")
   then (5 : ℚ) else 0) +
  (if (ctx.type == "saas") &&
      (jsIncludes s.category "ai" || jsIncludes s.id "analytics")
   then (3 : ℚ) else 0)

/-- `enhanced-analyzer.js` `rankWithMLScoring` raw score:
`impact * 2 - effort * 0.5 + confidence * 10 + businessContextBonus`. -/
def mlRawScore (s : Sugg) (ctx : BCtx) : ℚ :=
  s.impact * 2 - s.effort * (1/2) + s.confidence * 10 +
    getBusinessContextBonus s ctx

/-- `rankWithMLScoring` map step: stored score is the raw score rounded to
one decimal; the priority label is computed from the raw score. -/
def mlScored (ctx : BCtx) (s : Sugg) : Sugg :=
  { s with
    score := round1 (mlRawScore s ctx)
    priority :=
      if mlRawScore s ctx > 15 then "high"
      else if mlRawScore s ctx > 10 then "medium" else "low" }

/-- `enhanced-analyzer.js` `rankWithMLScoring`: map the ML score then sort
descending by the stored (rounded) score (no truncation). -/
def rankWithMLScoring (l : List Sugg) (ctx : BCtx) : List Sugg :=
  jsSortDesc (fun s => s.score) (l.map (mlScored ctx))

end EnhancedAnalyzer

namespace EnhancedAnalyzerSimple

/-- The pattern booleans of `enhanced-analyzer-simple.js`
`detectAdvancedPatterns` that the suggestion generator reads.  (In the
source, `hasChatbot` and `hasSearch` are initialized `false` and never
assigned by the detector.) -/
structure Patterns where
  hasChatbot : Bool := false
  hasDatabase : Bool := false
  hasCaching : Bool := false
  hasUserManagement : Bool := false
  hasAuth : Bool := false
  hasRecommendations : Bool := false
  hasDataManagement : Bool := false
  hasReporting : Bool := false
  hasSearch : Bool := false
  hasCheckout : Bool := false
deriving DecidableEq, Repr

/-- The hard-coded Redis provider of the database-optimization rule. -/
def redisRec : Rec :=
  { name := "Redis", company := "Redis Ltd.",
    implementation_time := "1-2 veckor", complexity := "medium",
    roi := "400-600%", business_impact := "10x snabbare dataåtkomst" }

/-- The hard-coded AWS Personalize provider of the personalization rule. -/
def awsPersonalizeRec : Rec :=
  { name := "AWS Personalize", implementation_time := "8-12 veckor",
    complexity := "high", roi := "400-600%",
    business_impact := "35% ökning konvertering" }

/-- The hard-coded Chart.js provider of the reporting rule. -/
def chartjsRec : Rec :=
  { name := "Chart.js + Custom Dashboard", company := "Open Source",
    implementation_time := "4-6 veckor", complexity := "medium",
    roi := "300-500%" }

/-- The hard-coded Grafana provider of the reporting rule. -/
def grafanaRec : Rec :=
  { name := "Grafana", company := "Grafana Labs",
    implementation_time := "2-3 veckor", complexity := "low",
    roi := "250-400%" }

/-- The `ai-chatbot` suggestion (category `ai-ux`); providers are the
`ai_ml` catalog entries whose use cases include `chatbot`, `slice(0, 3)`. -/
def chatbotSugg (db : ApiDatabase) : Sugg :=
  { id := "ai-chatbot", category := "ai-ux", impact := 9, effort := 4,
    confidence := 19/20,
    providers := (db.ai_ml.filter fun r => r.use_cases.contains "chatbot").take 3 }

/-- The `database-optimization` suggestion (category `performance`). -/
def dbOptSugg : Sugg :=
  { id := "database-optimization", category := "performance", impact := 8,
    effort := 4, confidence := 9/10, providers := [redisRec] }

/-- The `auth-improvement` suggestion (category `security`); providers are
`authentication.slice(0, 2)`. -/
def authSugg (db : ApiDatabase) : Sugg :=
  { id := "auth-improvement", category := "security", impact := 9,
    effort := 5, confidence := 19/20,
    providers := db.authentication.take 2 }

/-- The `personalization` suggestion (category `ai-business`); providers
are a hard-coded AWS Personalize entry plus the `enterprise_ai` entries of
`ai_ml`, `slice(0, 2)`. -/
def personalizationSugg (db : ApiDatabase) : Sugg :=
  { id := "personalization", category := "ai-business", impact := 10,
    effort := 7, confidence := 9/10,
    providers :=
      awsPersonalizeRec ::
        (db.ai_ml.filter fun r => r.category == "enterprise_ai").take 2 }

/-- The `reporting-system` suggestion (category `business_intelligence`). -/
def reportingSugg : Sugg :=
  { id := "reporting-system", category := "business_intelligence",
    impact := 8, effort := 6, confidence := 17/20,
    providers := [chartjsRec, grafanaRec] }

/-- The `advanced-search` suggestion (category `ai-ux`); providers are the
whole `search` section of the catalog (`.map` with no slice). -/
def searchSugg (db : ApiDatabase) : Sugg :=
  { id := "advanced-search", category := "ai-ux", impact := 8, effort := 5,
    confidence := 17/20, providers := db.search }

/-- The `payment-optimization` suggestion (category `business`); providers
are `payments.slice(0, 3)`. -/
def paymentSugg (db : ApiDatabase) : Sugg :=
  { id := "payment-optimization", category := "business", impact := 9,
    effort := 3, confidence := 19/20, providers := db.payments.take 3 }

/-- `enhanced-analyzer-simple.js` `generateEnhancedSuggestions`: the seven
guarded pushes, in source order. -/
def generateEnhancedSuggestions (p : Patterns) (ctx : BCtx)
    (db : ApiDatabase) : List Sugg :=
  (if !p.hasChatbot && (ctx.audience == "customer") then [chatbotSugg db]
   else []) ++
  (if (ctx.type == "internal_tool") && p.hasDatabase && !p.hasCaching then
    [dbOptSugg] else []) ++
  (if (ctx.type == "internal_tool") && p.hasUserManagement && !p.hasAuth then
    [authSugg db] else []) ++
  (if !p.hasRecommendations && (ctx.type == "ecommerce") then
    [personalizationSugg db] else []) ++
  (if (ctx.type == "internal_tool") && p.hasDataManagement && !p.hasReporting
   then [reportingSugg] else []) ++
  (if !p.hasSearch && (ctx.audience == "customer") then [searchSugg db]
   else []) ++
  (if (ctx.type == "ecommerce") && !p.hasCheckout then [paymentSugg db]
   else [])

end EnhancedAnalyzerSimple

/-!
## Snapshot files and the per-file read behavior of the strategies (C4)

A file of a snapshot: its (relative) path, its extension, and the outcome
of reading it (`.error ()` models a `fs.readFileSync` throw).
-/

deriving instance DecidableEq for Except

/-- A file record of the snapshot walk. -/
structure SFile where
  path : String := ""
  ext : String := ""
  content : Except Unit String := .ok ""
deriving DecidableEq, Repr

/-- Whether reading the file succeeds. -/
def SFile.readable (f : SFile) : Bool :=
  match f.content with
  | .ok _ => true
  | .error _ => false

namespace IntelligentCodeAnalyzer

/-- `intelligent-code-analyzer.js` `isCodeFile`. -/
def isCodeFile (ext : String) : Bool :=
  [".js", ".ts", ".py", ".java", ".php", ".rb", ".go", ".cs", ".cpp", ".c"].contains ext

/-- One step of the per-file loop of `performDeepCodeAnalysis`: a code file
whose read succeeds contributes its line count and its content (plus a
newline) to the accumulator; a read error is caught and the file skipped.
(The per-extension `fileTypes` tally is elided.) -/
def scanStep (acc : ℕ × String) (f : SFile) : ℕ × String :=
  if isCodeFile f.ext then
    match f.content with
    | .ok c => (acc.1 + jsLineCount c, acc.2 ++ c ++ "\n")
    | .error _ => acc
  else acc

/-- The file loop of `performDeepCodeAnalysis`: total line count and the
concatenated code (`allCode`). -/
def performDeepCodeAnalysisScan (files : List SFile) : ℕ × String :=
  files.foldl scanStep (0, "")

end IntelligentCodeAnalyzer

namespace AdvancedCodeAnalyzer

/-- `scan.js` (class `AdvancedCodeAnalyzer`) `isCodeFile`. -/
def isCodeFile (ext : String) : Bool :=
  [".js", ".ts", ".jsx", ".tsx", ".py", ".java", ".php", ".rb", ".go", ".cs"].contains ext

/-- The file loop of `buildCodebaseMap`: `fs.readFileSync` is called with
no surrounding `try`/`catch`, so the first unreadable code file aborts the
whole map construction (the result models `(files pushed, totalLines)`).
Code-element extraction is elided. -/
def buildCodebaseMap (files : List SFile) : Except Unit (ℕ × ℕ) :=
  files.foldlM
    (fun acc f =>
      if isCodeFile f.ext then
        f.content.map fun c => (acc.1 + 1, acc.2 + jsLineCount c)
      else .ok acc)
    (0, 0)

end AdvancedCodeAnalyzer

/-!
## The directory walk (C9)

`getFileStructure` / `getAllFiles` (identical in all analyzer variants)
walk a directory with `fs.readdirSync` and `fs.statSync`.  `statSync`
resolves symbolic links, so a symlink to a directory answers
`isDirectory()` and is recursed into if its *name* is not hidden and not
`node_modules` — wherever its target lives.  The filesystem is modelled as
a tree of entries; a `linkDir` entry carries the real location of its
target and the target's children.  The walk returns the real locations of
the file records it produces.
-/

/-- A directory entry as seen by the walk: a plain file, a real
subdirectory, or a symbolic link to a directory (with the link's name, the
real path of the target, and the target's entries). -/
inductive FTree where
  | file (name : String)
  | dir (name : String) (children : List FTree)
  | linkDir (name : String) (target : List String) (children : List FTree)

/-- The recursion guard of the walk:
`!item.startsWith('.') && item !== 'node_modules'` (the leading-dot test
is carried out on the character list). -/
def dirOk (name : String) : Bool :=
  !(name.data.take 1 == ['.']) && name != "node_modules"

/-- The walk of `getFileStructure` / `getAllFiles` over a list of entries,
accumulating the real location; `statSync` resolves links, so a `linkDir`
with an allowed name is entered at its target location. -/
def walkEntries (loc : List String) : List FTree → List (List String)
  | [] => []
  | .file n :: rest => (loc ++ [n]) :: walkEntries loc rest
  | .dir n ch :: rest =>
    (if dirOk n then walkEntries (loc ++ [n]) ch else []) ++
      walkEntries loc rest
  | .linkDir n target ch :: rest =>
    (if dirOk n then walkEntries target ch else []) ++ walkEntries loc rest

/-- Entry lists containing no symbolic links. -/
def noLinks : List FTree → Bool
  | [] => true
  | .file _ :: rest => noLinks rest
  | .dir _ ch :: rest => noLinks ch && noLinks rest
  | .linkDir _ _ _ :: _ => false

/-- `root.isPrefixOf p`: the real location `p` lies inside `root`. -/
def withinRoot (root p : List String) : Bool :=
  root.isPrefixOf p

/-!
## The intelligent analyzer's context classifier (C8)

`performDeepCodeAnalysis` computes, per pattern, a match `count` over the
concatenated code and a `density = count / totalLines * 1000`; for an
empty snapshot `totalLines = 0` and every count is `0`, so every density
is JavaScript `NaN` and every comparison with it is `false`.
`densityGT`/`densityLT` encode the JavaScript comparison semantics
(`NaN` compares false; `Infinity > x` is true for the thresholds used).
-/

namespace IntelligentCodeAnalyzer

/-- `density > x` with JavaScript division: `0/0 = NaN` (all comparisons
false), `n/0 = Infinity` for `n > 0` (greater than every threshold). -/
def densityGT (count totalLines : ℕ) (x : ℚ) : Bool :=
  if totalLines = 0 then count != 0
  else decide ((count : ℚ) / totalLines * 1000 > x)

/-- `density < x` with JavaScript division (`NaN` and `Infinity` both
compare false against the positive thresholds used). -/
def densityLT (count totalLines : ℕ) (x : ℚ) : Bool :=
  if totalLines = 0 then false
  else decide ((count : ℚ) / totalLines * 1000 < x)

/-- The pattern statistics of `performDeepCodeAnalysis` that
`inferProjectContext` reads: the total analyzable line count and the match
count of each relevant pattern (a pattern is `present` iff its count is
nonzero). -/
structure DeepAnalysis where
  totalLines : ℕ := 0
  ecommerce : ℕ := 0
  api : ℕ := 0
  frontend : ℕ := 0
  cms : ℕ := 0
  database : ℕ := 0
  authenticationCount : ℕ := 0
  authorizationCount : ℕ := 0
  monitoring : ℕ := 0
  caching : ℕ := 0
  security : ℕ := 0
  errorHandling : ℕ := 0
  validation : ℕ := 0
deriving DecidableEq, Repr

/-- The inferred project context of `inferProjectContext`. -/
structure ProjectContext where
  type : String := "unknown"
  purpose : String := "unknown"
  audience : String := "unknown"
  scale : String := "small"
  maturity : String := "early"
  businessModel : String := "unknown"
deriving DecidableEq, Repr

/-- `intelligent-code-analyzer.js` `inferProjectContext`. -/
def inferProjectContext (a : DeepAnalysis) : ProjectContext :=
  let scale :=
    if a.totalLines > 50000 then "enterprise"
    else if a.totalLines > 10000 then "medium" else "small"
  let maturity :=
    if a.monitoring != 0 && a.caching != 0 &&
        densityGT a.security a.totalLines 3 then "mature"
    else if a.errorHandling != 0 && a.validation != 0 then "developing"
    else "early"
  if densityGT a.ecommerce a.totalLines 5 then
    { type := "ecommerce", purpose := "sales", audience := "customers",
      businessModel := "b2c", scale := scale, maturity := maturity }
  else if densityGT a.api a.totalLines 10 &&
      densityLT a.frontend a.totalLines 2 then
    { type := "api_service", purpose := "integration",
      audience := "developers", businessModel := "b2b", scale := scale,
      maturity := maturity }
  else if densityGT a.cms a.totalLines 3 then
    { type := "content_platform", purpose := "publishing",
      audience := "readers", businessModel := "content", scale := scale,
      maturity := maturity }
  else if a.authenticationCount != 0 && a.authorizationCount != 0 &&
      densityGT a.database a.totalLines 8 then
    { type := "business_application", purpose := "operations",
      audience := "employees", businessModel := "internal", scale := scale,
      maturity := maturity }
  else if densityGT a.frontend a.totalLines 5 then
    { type := "web_application", purpose := "service", audience := "users",
      businessModel := "saas", scale := scale, maturity := maturity }
  else
    { scale := scale, maturity := maturity }

/-- The pattern-count part of `performDeepCodeAnalysis`: the per-pattern
global match counts over `allCode` (the alternation regexes of
`initializeCodePatterns`, restricted to the patterns the classifier
reads; the `try.*catch` alternative of `error_handling` is counted as one
match when it occurs, which preserves the `present` flag). -/
def performDeepCodeAnalysis (files : List SFile) : DeepAnalysis :=
  let res := performDeepCodeAnalysisScan files
  let allCode := res.2
  { totalLines := res.1
    ecommerce := ciCountAlts
      ["product", "cart", "order", "checkout", "inventory", "catalog"] allCode
    api := ciCountAlts
      ["app.get", "app.post", "app.put", "app.delete", "router.",
       "endpoint", "api"] allCode
    frontend := ciCountAlts
      ["react", "vue", "angular", "html", "css", "dom", "window",
       "document"] allCode
    cms := ciCountAlts ["content", "cms", "blog", "article", "post"] allCode
    database := ciCountAlts
      ["database", "db.", "sql", "query", "table", "schema", "migration"]
      allCode
    authenticationCount := ciCountAlts
      ["login", "auth", "jwt", "session", "password", "token"] allCode
    authorizationCount := ciCountAlts
      ["role", "permission", "access", "admin", "user"] allCode
    monitoring := ciCountAlts ["monitor", "metric", "analytics", "track"]
      allCode
    caching := ciCountAlts ["cache", "redis", "memcached", "storage"] allCode
    security := ciCountAlts
      ["security", "secure", "protect", "vulnerability"] allCode
    errorHandling :=
      ciCountAlts ["error", "exception", "throw"] allCode +
        (if seqHolds (lcs allCode) ["try", "catch"] then 1 else 0)
    validation := ciCountAlts
      ["validate", "sanitize", "joi", "yup", "schema"] allCode }

end IntelligentCodeAnalyzer

/-!
## The deep analyzer's security recommendation (C5)

`deep-code-analyzer.js` `analyzeSecurityInCode` scans every line of every
file: a line containing `req.body` in a file whose content mentions none
of `validate`/`joi`/`yup` is one issue, and a line containing `query` and
`+` and (`req.` or `${`) is one issue.  `identifySpecificSecurityIssues`
turns each into one entry, so the issue count is preserved.
`createSecurityRecommendation` then sets
`impact = min(10, 6 + n)`, `effort = max(3, n)`, `confidence = 0.95`.
-/

namespace DeepCodeAnalyzer

/-- Issue count contributed by one file `(path, content)` in
`analyzeSecurityInCode`. -/
def fileIssueCount (content : String) : ℕ :=
  let ls := jsSplitLines content
  (ls.countP fun line =>
    jsIncludes line "req.body" && !jsIncludes content "validate" &&
      !jsIncludes content "joi" && !jsIncludes content "yup") +
  (ls.countP fun line =>
    jsIncludes line "query" && jsIncludes line "+" &&
      (jsIncludes line "req." || jsIncludes line "$\x7b"))

/-- Total security-issue count of `analyzeSecurityInCode` /
`identifySpecificSecurityIssues` over the readable file contents. -/
def countSecurityIssues (files : List (String × String)) : ℕ :=
  (files.map fun f => fileIssueCount f.2).sum

/-- `createSecurityRecommendation`: `impact = Math.min(10, 6 + n)`. -/
def secImpact (n : ℕ) : ℚ :=
  min 10 (6 + (n : ℚ))

/-- `createSecurityRecommendation`: `effort = Math.max(3, n)` — with no
upper bound. -/
def secEffort (n : ℕ) : ℚ :=
  max 3 (n : ℚ)

/-- `createSecurityRecommendation`: `confidence = 0.95`. -/
def secConfidence : ℚ := 19/20

/-- `getSecurityProviders`: `authentication.slice(0, 2)` plus
`monitoring[0]` (the head access is modelled totally). -/
def getSecurityProviders (db : ApiDatabase) : List Rec :=
  db.authentication.take 2 ++
    (match db.monitoring with
     | [] => []
     | m :: _ => [m])

/-- The numeric/provider fields of the `security_upgrade` recommendation
of `createSecurityRecommendation` (the prose fields are elided). -/
def createSecurityRecommendation (db : ApiDatabase)
    (files : List (String × String)) : Sugg :=
  let n := countSecurityIssues files
  { id := "security_upgrade", category := "security",
    impact := secImpact n, effort := secEffort n,
    confidence := secConfidence, providers := getSecurityProviders db }

end DeepCodeAnalyzer

/-!
## The code-replacement analyzer

`code-replacement-analyzer.js`: `buildCodePatterns` fixes seven pattern
categories; `scanCodebase` collects, per category, the matches over all
readable code files (a read error is caught and the file skipped;
`codebase.patterns` — a `Map` keyed by the seven category names — is
modelled as a record with one match-list field per category, iterated in
the fixed declaration order of `buildCodePatterns`).  The
`codeSnippet`/`lineNumber` fields of a match and the Swedish prose
generators are elided.
-/

namespace CodeReplacementAnalyzer

/-- One recorded match of `scanCodebase`. -/
structure MatchData where
  file : String := ""
  current : String := ""
  weakness : String := ""
deriving DecidableEq, Repr

/-- One pattern of `buildCodePatterns`: the regex and its
`current`/`weakness` strings. -/
structure CodePattern where
  code : JsRegex
  current : String
  weakness : String

/-- `buildCodePatterns().payments.patterns`. -/
def paymentsPatterns : List CodePattern :=
  [⟨[["paypal"], ["braintree"]], "PayPal/Braintree",
    "Begränsade funktioner"⟩,
   ⟨[["square"]], "Square", "Främst för fysiska butiker"⟩,
   ⟨[["manual", "payment"], ["bank", "transfer"]], "Manuella betalningar",
    "Ingen automation"⟩]

/-- `buildCodePatterns().auth.patterns`. -/
def authPatterns : List CodePattern :=
  [⟨[["passport"], ["session"], ["cookie", "auth"]],
    "Egen auth-implementation", "Säkerhetsrisker, underhållskrävande"⟩,
   ⟨[["jwt", "sign"], ["jsonwebtoken"]], "Egen JWT-hantering",
    "Komplex säkerhetshantering"⟩,
   ⟨[["bcrypt"], ["password", "hash"]], "Egen lösenordshantering",
    "Säkerhetsrisker"⟩]

/-- `buildCodePatterns().analytics.patterns`. -/
def analyticsPatterns : List CodePattern :=
  [⟨[["console.log"]], "Console.log för debugging",
    "Ingen strukturerad analys eller insikter"⟩,
   ⟨[["google", "analytics", "gtag"]], "Grundläggande GA",
    "Begränsad produktanalys"⟩,
   ⟨[["manual", "analytics"]], "Manuell dataanalys",
    "Tidskrävande, felbenäget"⟩,
   ⟨[["error"], ["catch"], ["throw"]], "Grundläggande felhantering",
    "Ingen centraliserad felspårning"⟩]

/-- `buildCodePatterns().communication.patterns`. -/
def communicationPatterns : List CodePattern :=
  [⟨[["nodemailer"], ["smtp"]], "Egen e-postserver",
    "Leveransproblem, spam-risk"⟩,
   ⟨[["manual", "email"], ["alert", "email"]], "Manuella e-postnotiser",
    "Ingen automation"⟩,
   ⟨[["console", "log", "notification"]], "Ingen riktig kommunikation",
    "Användare får ingen feedback"⟩]

/-- `buildCodePatterns().search.patterns`. -/
def searchPatterns : List CodePattern :=
  [⟨[["indexof"], ["includes", "search"], ["filter", "search"]],
    "Grundläggande JavaScript-sökning", "Långsam, ingen relevans-ranking"⟩,
   ⟨[["sql", "like"], ["database", "search"]], "Databassökning med LIKE",
    "Långsam, ingen fuzzy matching"⟩,
   ⟨[["manual", "search"]], "Ingen sökfunktion",
    "Dålig användarupplevelse"⟩]

/-- `buildCodePatterns().media.patterns`. -/
def mediaPatterns : List CodePattern :=
  [⟨[["multer"], ["file", "upload", "local"]], "Lokal fillagring",
    "Skalbarhetsproblem, ingen CDN"⟩,
   ⟨[["fs.writefile"], ["local", "storage"]], "Filsystem-lagring",
    "Ingen backup, långsam leverans"⟩,
   ⟨[["base64", "image"]], "Base64-bilder i databas",
    "Stor databasbelastning"⟩]

/-- `buildCodePatterns().monitoring.patterns`; the fourth pattern
`/function|const|let|var|=>/i` matches essentially any code. -/
def monitoringPatterns : List CodePattern :=
  [⟨[["console.log", "error"], ["try", "catch", "console"]],
    "Console.log för felhantering", "Ingen strukturerad felspårning"⟩,
   ⟨[["manual", "monitoring"]], "Manuell övervakning",
    "Reaktiv istället för proaktiv"⟩,
   ⟨[["no", "monitoring"]], "Ingen övervakning",
    "Vet inte när system går ner"⟩,
   ⟨[["function"], ["const"], ["let"], ["var"], ["=>"]],
    "Grundläggande kod utan övervakning",
    "Ingen felspårning eller prestandaövervakning"⟩]

/-- The baseline monitoring detector `/function|const|let|var|=>/i`. -/
def monitoringBaseRegex : JsRegex :=
  [["function"], ["const"], ["let"], ["var"], ["=>"]]

/-- `code-replacement-analyzer.js` `isCodeFile`. -/
def isCodeFile (ext : String) : Bool :=
  [".js", ".ts", ".jsx", ".tsx", ".py", ".java", ".php"].contains ext

/-- The matches one file contributes to one category in `scanCodebase`:
nothing for a non-code file or a file whose read throws (the `catch`
skips it); otherwise one `MatchData` per matching pattern of the
category, in pattern order. -/
def fileCatMatches (pats : List CodePattern) (f : SFile) : List MatchData :=
  if isCodeFile f.ext then
    match f.content with
    | .error _ => []
    | .ok c =>
      pats.filterMap fun p =>
        if testPat p.code c then
          some { file := f.path, current := p.current,
                 weakness := p.weakness }
        else none
  else []

/-- The `codebase.patterns` map built by `scanCodebase`, one match list
per category (appended in file order, pattern order within a file). -/
structure PatternsMap where
  payments : List MatchData := []
  auth : List MatchData := []
  analytics : List MatchData := []
  communication : List MatchData := []
  search : List MatchData := []
  media : List MatchData := []
  monitoring : List MatchData := []
deriving DecidableEq, Repr

/-- `scanCodebase` (pattern-collection part). -/
def scanCodebase (files : List SFile) : PatternsMap :=
  { payments := files.flatMap (fileCatMatches paymentsPatterns)
    auth := files.flatMap (fileCatMatches authPatterns)
    analytics := files.flatMap (fileCatMatches analyticsPatterns)
    communication := files.flatMap (fileCatMatches communicationPatterns)
    search := files.flatMap (fileCatMatches searchPatterns)
    media := files.flatMap (fileCatMatches mediaPatterns)
    monitoring := files.flatMap (fileCatMatches monitoringPatterns) }

/-- `calculateCategoryImpact` base table. -/
def baseImpact (category : String) : ℚ :=
  if category == "payments" then 9
  else if category == "auth" then 8
  else if category == "monitoring" then 7
  else if category == "communication" then 6
  else if category == "analytics" then 5
  else if category == "search" then 4
  else if category == "media" then 3
  else 3

/-- `calculateCategoryImpact`:
`Math.min(10, base + Math.floor(fileCount / 2))`. -/
def calculateCategoryImpact (category : String) (fileCount : ℕ) : ℚ :=
  min 10 (baseImpact category + ((fileCount / 2 : ℕ) : ℚ))

/-- `estimateReplacementEffort` base table. -/
def baseEffort (category : String) : ℚ :=
  if category == "payments" then 6
  else if category == "auth" then 5
  else if category == "monitoring" then 3
  else if category == "communication" then 2
  else if category == "analytics" then 2
  else if category == "search" then 4
  else if category == "media" then 3
  else 3

/-- `estimateReplacementEffort`:
`Math.min(10, base + Math.floor(fileCount / 3))`. -/
def estimateReplacementEffort (category : String) (fileCount : ℕ) : ℚ :=
  min 10 (baseEffort category + ((fileCount / 3 : ℕ) : ℚ))

/-- The first run of digits of a string, as a number
(`s.match(/(\d+)/)`). -/
def firstNat (s : String) : Option ℕ :=
  let ds := (s.data.dropWhile fun c => !c.isDigit).takeWhile Char.isDigit
  if ds.isEmpty then none
  else some (ds.foldl (fun n c => n * 10 + (c.toNat - 48)) 0)

/-- `scoreRecommendation` (the `matches` argument is unused in the
source). -/
def scoreRecommendation (r : Rec) : ℚ :=
  (if jsIncludes r.business_impact "50%" then (5 : ℚ) else 0) +
  (if jsIncludes r.business_impact "30%" then (3 : ℚ) else 0) +
  (if jsIncludes r.business_impact "25%" then (2 : ℚ) else 0) +
  (if r.complexity == "low" || r.complexity == "very_low" then (3 : ℚ)
   else 0) +
  (if r.complexity == "medium" then (1 : ℚ) else 0) +
  (match firstNat r.roi with
   | some n => min ((n : ℚ) / 100) 5
   | none => 0)

/-- `selectBestRecommendations`: score, sort descending by score,
`slice(0, 3)` (the final field-renaming map is elided; the entries are
kept as catalog records). -/
def selectBestRecommendations (recommendations : List Rec) : List Rec :=
  (jsSortDesc scoreRecommendation recommendations).take 3

/-- One replacement opportunity of `findReplacementOpportunities`. -/
structure Opp where
  category : String := ""
  currentSolution : String := ""
  weakness : String := ""
  affectedFiles : List String := []
  recommendations : List Rec := []
  impact : ℚ := 0
  effort : ℚ := 0
deriving DecidableEq, Repr

/-- The opportunity one category contributes (none when the category has
no matches). -/
def oppFor (category : String) (recommendations : List Rec)
    (ms : List MatchData) : List Opp :=
  match ms with
  | [] => []
  | m :: rest =>
    [{ category := category, currentSolution := m.current,
       weakness := m.weakness,
       affectedFiles := (m :: rest).map fun x => x.file,
       recommendations := selectBestRecommendations recommendations,
       impact := calculateCategoryImpact category (m :: rest).length,
       effort := estimateReplacementEffort category (m :: rest).length }]

/-- `findReplacementOpportunities`: one opportunity per category with at
least one match, in map order. -/
def findReplacementOpportunities (db : ApiDatabase) (pm : PatternsMap) :
    List Opp :=
  oppFor "payments" db.payments pm.payments ++
  oppFor "auth" db.authentication pm.auth ++
  oppFor "analytics" db.analytics pm.analytics ++
  oppFor "communication" db.communication pm.communication ++
  oppFor "search" db.search pm.search ++
  oppFor "media" db.media_storage pm.media ++
  oppFor "monitoring" db.monitoring pm.monitoring

/-- A prioritized recommendation of `prioritizeRecommendations` (the
prose fields are elided; `estimatedTimeline` holds `recommendations[0]
.implementationTime`, an access that throws on an empty array — the
throwing path is modelled by `withPriorityChecked` below). -/
structure RankedRec where
  id : String := ""
  category : String := ""
  priority : ℕ := 0
  impact : ℚ := 0
  effort : ℚ := 0
  providers : List Rec := []
  estimatedTimeline : Option String := none
deriving DecidableEq, Repr

/-- The ordering key of `prioritizeRecommendations`:
`impact * 10 - effort`. -/
def oppKey (o : Opp) : ℚ :=
  o.impact * 10 - o.effort

/-- The record built for one opportunity at position `index` in
`prioritizeRecommendations`. -/
def mkRanked (index : ℕ) (o : Opp) : RankedRec :=
  { id := "replacement_" ++ o.category, category := o.category,
    priority := index + 1, impact := o.impact, effort := o.effort,
    providers := o.recommendations,
    estimatedTimeline :=
      o.recommendations.head?.map fun r => r.implementation_time }

/-- The indexed map step of `prioritizeRecommendations`
(`.map((opp, index) => ...)`). -/
def withPriority (n : ℕ) : List Opp → List RankedRec
  | [] => []
  | o :: rest => mkRanked n o :: withPriority (n + 1) rest

/-- `prioritizeRecommendations`: sort descending by
`impact * 10 - effort`, then decorate with the position as `priority`
(no truncation). -/
def prioritizeRecommendations (opportunities : List Opp) :
    List RankedRec :=
  withPriority 0 (jsSortDesc oppKey opportunities)

/-- The indexed map step of `prioritizeRecommendations` with the
`opp.recommendations[0]` dereferences modelled: `generateSimpleSolution`,
`generateWhyRecommended` and the `estimatedTimeline` field all read
`recommendations[0]` unguarded, so mapping an opportunity whose
`recommendations` array is empty throws a `TypeError`; on the
non-throwing path the value is exactly `withPriority`. -/
def withPriorityChecked (n : ℕ) :
    List Opp → Except Unit (List RankedRec)
  | [] => .ok []
  | o :: rest =>
    if o.recommendations.isEmpty then .error ()
    else
      match withPriorityChecked (n + 1) rest with
      | .error e => .error e
      | .ok tail => .ok (mkRanked n o :: tail)

/-- `prioritizeRecommendations` as run by the source, including the
`TypeError` it throws on an opportunity whose catalog section was empty
(`withPriority`/`prioritizeRecommendations` above are its value on the
non-throwing path). -/
def prioritizeRecommendationsChecked (opportunities : List Opp) :
    Except Unit (List RankedRec) :=
  withPriorityChecked 0 (jsSortDesc oppKey opportunities)

/-- `analyzeCodeForReplacements` (the `suggestions` field of its result):
scan, find opportunities, prioritize; the run throws — and the caller's
fallback chain moves on — when some matched category's catalog section is
empty, because `prioritizeRecommendations` then reads
`recommendations[0]` of an empty array. -/
def analyzeCodeForReplacements (db : ApiDatabase) (files : List SFile) :
    Except Unit (List RankedRec) :=
  prioritizeRecommendationsChecked
    (findReplacementOpportunities db (scanCodebase files))

end CodeReplacementAnalyzer

/-!
## Concrete fixtures used by the counterexamples and witnesses
-/

/-- An empty provider catalog. -/
def sampleDb : ApiDatabase := {}

/-- A monitoring provider entry. -/
def sampleMonitoringRec : Rec :=
  { name := "Sentry", company := "Sentry",
    implementation_time := "1-2 dagar", complexity := "low", roi := "300%" }

/-- A catalog whose monitoring section is non-empty. -/
def sampleDbMonitoring : ApiDatabase :=
  { monitoring := [sampleMonitoringRec] }

/-- All pattern flags false (also the result of the enhanced detector on a
snapshot with no matching code). -/
def samplePatterns : EnhancedAnalyzerSimple.Patterns := {}

/-- An e-commerce, customer-facing business context. -/
def sampleCtx : BCtx := { type := "ecommerce", audience := "customer" }

/-- The `ai-chatbot` suggestion template as a bare finding (impact 9,
effort 4, confidence 0.95). -/
def sampleSugg : Sugg :=
  { id := "ai-chatbot", category := "ai-ux", impact := 9, effort := 4,
    confidence := 19/20 }

/-- A code file whose read throws. -/
def brokenFile : SFile :=
  { path := "/broken.js", ext := ".js", content := .error () }

/-- A readable one-line code file. -/
def okFile : SFile := { path := "/ok.js", ext := ".js", content := .ok "x" }

/-- Eleven lines that each read `req.body` without any validation in the
file. -/
def insecureContent : String :=
  String.intercalate "\n" (List.replicate 11 "app.post(req.body)")

/-- A snapshot root containing one symlinked directory whose target lies
outside the root. -/
def linkedTree : List FTree :=
  [.linkDir "data" ["outside"] [.file "secret.txt"]]

/-- A snapshot root with no symlinks. -/
def plainTree : List FTree := [.dir "src" [.file "a.txt"]]

/-- A readable code file matching `/function|const|let|var|=>/i`. -/
def codeFile : SFile :=
  { path := "/app.js", ext := ".js", content := .ok "const x = 1" }

/-- A readable code file that fires the analytics error-handling pattern
(`throw`) besides the baseline monitoring pattern (`const`). -/
def crashFile : SFile :=
  { path := "/crash.js", ext := ".js",
    content := .ok "const x = 1; throw e" }

/-- A catalog with one provider in every section, like the shipped
dataset. -/
def fullDb : ApiDatabase :=
  { payments := [sampleMonitoringRec],
    authentication := [sampleMonitoringRec],
    analytics := [sampleMonitoringRec],
    communication := [sampleMonitoringRec],
    search := [sampleMonitoringRec],
    media_storage := [sampleMonitoringRec],
    monitoring := [sampleMonitoringRec],
    ai_ml := [sampleMonitoringRec] }

/-!
## Helper lemmas
-/

theorem mem_opt_singleton {α : Type} {c : Bool} {x s : α}
    (h : s ∈ (if c then [x] else [])) : s = x := by
  cases c <;> simp_all

theorem length_opt_singleton {α : Type} (c : Bool) (x : α) :
    (if c then [x] else []).length ≤ 1 := by
  cases c <;> simp

theorem opt_append_sublist {α : Type} (c : Bool) (a : α)
    {xs ys : List α} (h : List.Sublist xs ys) :
    List.Sublist ((if c then [a] else []) ++ xs) (a :: ys) := by
  cases c
  · simpa using h.cons a
  · simpa using h.cons₂ a

theorem map_opt_singleton {α β : Type} (c : Bool) (x : α) (f : α → β) :
    ((if c then [x] else []).map f) = (if c then [f x] else []) := by
  cases c <;> simp

theorem isPrefixOf_append_self {α : Type} [BEq α] [LawfulBEq α] :
    ∀ (l t : List α), l.isPrefixOf (l ++ t) = true
  | [], _ => by simp [List.isPrefixOf]
  | a :: as, t => by
    simp [List.isPrefixOf, isPrefixOf_append_self as t]

theorem isPrefixOf_of_append_left {α : Type} [BEq α] [LawfulBEq α] :
    ∀ (l t p : List α), (l ++ t).isPrefixOf p = true →
      l.isPrefixOf p = true
  | [], _, _, _ => by simp [List.isPrefixOf]
  | a :: as, t, [], h => by simp [List.isPrefixOf] at h
  | a :: as, t, b :: bs, h => by
    simp only [List.cons_append, List.isPrefixOf, Bool.and_eq_true] at h ⊢
    exact ⟨h.1, isPrefixOf_of_append_left as t bs h.2⟩

namespace IntelligentCodeAnalyzer

theorem foldl_scanStep_filter :
    ∀ (files : List SFile) (acc : ℕ × String),
      files.foldl scanStep acc =
        (files.filter SFile.readable).foldl scanStep acc := by
  intro files
  induction files with
  | nil => intro acc; rfl
  | cons f rest ih =>
    intro acc
    rcases hc : f.content with e | c
    · have hr : f.readable = false := by simp [SFile.readable, hc]
      have hstep : scanStep acc f = acc := by
        by_cases hcode : isCodeFile f.ext <;> simp [scanStep, hcode, hc]
      simp [List.filter_cons, hr, hstep, ih]
    · have hr : f.readable = true := by simp [SFile.readable, hc]
      simp [List.filter_cons, hr, List.foldl_cons, ih]

end IntelligentCodeAnalyzer

namespace CodeReplacementAnalyzer

theorem mem_withPriority :
    ∀ (n : ℕ) (l : List Opp) (r : RankedRec), r ∈ withPriority n l →
      ∃ o ∈ l, ∃ m, r = mkRanked m o := by
  intro n l
  induction l generalizing n with
  | nil => intro r hr; simp [withPriority] at hr
  | cons o rest ih =>
    intro r hr
    rcases List.mem_cons.1 hr with rfl | hr
    · exact ⟨o, List.mem_cons_self .., n, rfl⟩
    · obtain ⟨o', ho', m, rfl⟩ := ih (n + 1) r hr
      exact ⟨o', List.mem_cons_of_mem _ ho', m, rfl⟩

theorem withPriority_mem_of_mem :
    ∀ (n : ℕ) (l : List Opp) (o : Opp), o ∈ l →
      ∃ r ∈ withPriority n l, r.category = o.category := by
  intro n l
  induction l generalizing n with
  | nil => intro o ho; simp at ho
  | cons o' rest ih =>
    intro o ho
    rcases List.mem_cons.1 ho with rfl | ho
    · exact ⟨mkRanked n o, List.mem_cons_self .., rfl⟩
    · obtain ⟨r, hr, hcat⟩ := ih (n + 1) o ho
      exact ⟨r, List.mem_cons_of_mem _ hr, hcat⟩

theorem withPriority_pairwise {R : Opp → Opp → Prop}
    {S : RankedRec → RankedRec → Prop}
    (hRS : ∀ (n m : ℕ) (o o' : Opp), R o o' → S (mkRanked n o) (mkRanked m o')) :
    ∀ (n : ℕ) (l : List Opp), l.Pairwise R →
      (withPriority n l).Pairwise S := by
  intro n l
  induction l generalizing n with
  | nil => intro _; simp [withPriority]
  | cons o rest ih =>
    intro hl
    obtain ⟨hhead, htail⟩ := List.pairwise_cons.1 hl
    refine List.pairwise_cons.2 ⟨?_, ih (n + 1) htail⟩
    intro r hr
    obtain ⟨o', ho', m, rfl⟩ := mem_withPriority (n + 1) rest r hr
    exact hRS n m o o' (hhead o' ho')

theorem withPriority_length :
    ∀ (n : ℕ) (l : List Opp), (withPriority n l).length = l.length := by
  intro n l
  induction l generalizing n with
  | nil => rfl
  | cons o rest ih => simp [withPriority, ih]

theorem oppFor_length_le (category : String) (recommendations : List Rec)
    (ms : List MatchData) :
    (oppFor category recommendations ms).length ≤ 1 := by
  cases ms <;> simp [oppFor]

theorem oppFor_categories (category : String) (recommendations : List Rec)
    (ms : List MatchData) :
    (oppFor category recommendations ms).map (fun o => o.category) =
      if ms.isEmpty then [] else [category] := by
  cases ms <;> simp [oppFor]

end CodeReplacementAnalyzer

theorem walkEntries_inside :
    ∀ (entries : List FTree) (loc : List String),
      noLinks entries = true →
      ∀ p ∈ walkEntries loc entries, withinRoot loc p = true
  | [], _, _ => by simp [walkEntries]
  | .file n :: rest, loc, h => by
    intro p hp
    rw [walkEntries] at hp
    rcases List.mem_cons.1 hp with rfl | hp
    · exact isPrefixOf_append_self loc [n]
    · exact walkEntries_inside rest loc (by simpa [noLinks] using h) p hp
  | .dir n ch :: rest, loc, h => by
    intro p hp
    rw [walkEntries] at hp
    have hch : noLinks ch = true ∧ noLinks rest = true := by
      simpa [noLinks, Bool.and_eq_true] using h
    rcases List.mem_append.1 hp with hp | hp
    · by_cases hd : dirOk n
      · rw [if_pos hd] at hp
        have := walkEntries_inside ch (loc ++ [n]) hch.1 p hp
        exact isPrefixOf_of_append_left loc [n] p this
      · rw [if_neg hd] at hp
        simp at hp
    · exact walkEntries_inside rest loc hch.2 p hp
  | .linkDir n t ch :: rest, loc, h => by
    simp [noLinks] at h

/-!
## Claim theorems
-/

/-- C2: if the first strategy throws and the second succeeds, the analyzer
chain returns exactly the second strategy's result — nothing produced by
the failed first strategy appears in the returned value. -/
theorem c2_chain_returns_second_strategy {α : Type} (e1 : String) (v : α)
    (r3 r4 r5 : Except String α) :
    Server.analyzerChain (.error e1) (.ok v) r3 r4 r5 = .ok v :=
  rfl

/-- C3 counterexample: when all five strategies throw, the surfaced
failure is exactly the last strategy's error; two runs whose first four
errors differ surface identical values, so the surfaced failure cannot
carry the set of underlying strategy errors. -/
theorem c3_counterexample :
    Server.analyzerChain (α := Unit) (.error "replacement failed")
        (.error "deep failed") (.error "intelligent failed")
        (.error "enhanced failed") (.error "basic failed") =
      .error "basic failed" ∧
    Server.analyzerChain (α := Unit) (.error "E1") (.error "E2")
        (.error "E3") (.error "E4") (.error "basic failed") =
      Server.analyzerChain (α := Unit) (.error "replacement failed")
        (.error "deep failed") (.error "intelligent failed")
        (.error "enhanced failed") (.error "basic failed") :=
  ⟨rfl, rfl⟩

/-- C3 (amended): if every strategy in the analyzer chain throws, the
failure surfaced to the caller is only the error of the last (basic)
strategy; the errors of the earlier strategies are not part of the
surfaced value. -/
theorem c3_last_error_only {α : Type} (e1 e2 e3 e4 e5 : String) :
    Server.analyzerChain (α := α) (.error e1) (.error e2) (.error e3)
      (.error e4) (.error e5) = .error e5 :=
  rfl

/-- C4 counterexample: in the advanced analyzer's `buildCodebaseMap` the
per-file read is not guarded, so one unreadable code file aborts the whole
scan (while the intelligent analyzer's guarded loop skips it and processes
the remaining file). -/
theorem c4_counterexample :
    AdvancedCodeAnalyzer.buildCodebaseMap [brokenFile, okFile] =
      .error () ∧
    IntelligentCodeAnalyzer.performDeepCodeAnalysisScan
      [brokenFile, okFile] = (1, "x\n") :=
  ⟨rfl, rfl⟩

/-- C4 (amended): the strategies that wrap the per-file read in
`try`/`catch` (e.g. the intelligent analyzer's `performDeepCodeAnalysis`
and the replacement analyzer's `scanCodebase`) skip an unreadable file and
continue with the remaining files, but the advanced analyzer's
`buildCodebaseMap` reads with no guard, so one unreadable code file aborts
that strategy's whole scan (the chain then falls back to the next
strategy). -/
theorem c4_per_file_error_handling :
    (∀ files : List SFile,
      IntelligentCodeAnalyzer.performDeepCodeAnalysisScan files =
        IntelligentCodeAnalyzer.performDeepCodeAnalysisScan
          (files.filter SFile.readable)) ∧
    (∀ files : List SFile,
      CodeReplacementAnalyzer.scanCodebase files =
        CodeReplacementAnalyzer.scanCodebase
          (files.filter SFile.readable)) ∧
    AdvancedCodeAnalyzer.buildCodebaseMap [brokenFile, okFile] =
      .error () := by
  refine ⟨fun files => IntelligentCodeAnalyzer.foldl_scanStep_filter files (0, ""), fun files => ?_, rfl⟩
  have h : ∀ (pats : List CodeReplacementAnalyzer.CodePattern),
      files.flatMap (CodeReplacementAnalyzer.fileCatMatches pats) =
        (files.filter SFile.readable).flatMap
          (CodeReplacementAnalyzer.fileCatMatches pats) := by
    intro pats
    induction files with
    | nil => rfl
    | cons f rest ih =>
      rcases hc : f.content with e | c
      · have hr : f.readable = false := by simp [SFile.readable, hc]
        have hskip : CodeReplacementAnalyzer.fileCatMatches pats f = [] := by
          by_cases hcode : CodeReplacementAnalyzer.isCodeFile f.ext <;>
            simp [CodeReplacementAnalyzer.fileCatMatches, hcode, hc]
        simp [List.filter_cons, hr, hskip, ih]
      · have hr : f.readable = true := by simp [SFile.readable, hc]
        simp [List.filter_cons, hr, ih]
  simp [CodeReplacementAnalyzer.scanCodebase, h]

/-- C8 counterexample: on a snapshot with zero files the intelligent
analyzer's classifier returns the default type `"unknown"`, not the
`"unspecified application"` the specification promises. -/
theorem c8_counterexample :
    (IntelligentCodeAnalyzer.inferProjectContext
        (IntelligentCodeAnalyzer.performDeepCodeAnalysis [])).type =
      "unknown" ∧
    ("unknown" : String) ≠ "unspecified application" :=
  ⟨rfl, by decide⟩

/-- C8 (amended): for a snapshot containing zero files the strategy
returns normally: total line count `0`, empty concatenated code, every
density `NaN` (comparing false), and the all-default context with type
`"unknown"`, scale `"small"` and maturity `"early"`. -/
theorem c8_empty_snapshot_default :
    IntelligentCodeAnalyzer.performDeepCodeAnalysisScan [] = (0, "") ∧
    IntelligentCodeAnalyzer.inferProjectContext
        (IntelligentCodeAnalyzer.performDeepCodeAnalysis []) =
      { type := "unknown", purpose := "unknown", audience := "unknown",
        scale := "small", maturity := "early",
        businessModel := "unknown" } :=
  ⟨rfl, rfl⟩

/-- C9 counterexample: the walk resolves a directory symlink with an
allowed name and recurses into its target, so it produces a file record
whose real location lies outside the scanned root. -/
theorem c9_counterexample :
    walkEntries ["root"] linkedTree = [["outside", "secret.txt"]] ∧
    withinRoot ["root"] ["outside", "secret.txt"] = false := by
  refine ⟨?_, rfl⟩
  simp +decide [linkedTree, walkEntries, dirOk]

/-- C9 (amended): the walk guards only on the entry's *name* (hidden
directories and `node_modules`); on a link-free tree every produced record
lies within the root, but a directory symlink with an allowed name is
entered at its target, wherever that is. -/
theorem c9_walk_follows_links :
    (∀ (loc : List String) (entries : List FTree),
      noLinks entries = true →
      ∀ p ∈ walkEntries loc entries, withinRoot loc p = true) ∧
    (∀ (n : String) (t : List String) (ch rest : List FTree)
        (loc : List String), dirOk n = true →
      walkEntries loc (.linkDir n t ch :: rest) =
        walkEntries t ch ++ walkEntries loc rest) :=
  ⟨fun loc entries h => walkEntries_inside entries loc h,
   fun _ _ _ _ _ hd => by rw [walkEntries, if_pos hd]⟩

/-- Witness for `c9_walk_follows_links` at concrete inputs. -/
theorem c9_walk_follows_links_witness :
    withinRoot ["root"] ["root", "src", "a.txt"] = true ∧
    walkEntries ["root"] linkedTree =
      walkEntries ["outside"] [.file "secret.txt"] ++
        walkEntries ["root"] [] :=
  ⟨c9_walk_follows_links.1 ["root"] plainTree
      (by simp [plainTree, noLinks]) ["root", "src", "a.txt"]
      (by simp +decide [plainTree, walkEntries, dirOk]),
   c9_walk_follows_links.2 "data" ["outside"] [.file "secret.txt"] []
      ["root"] (by decide)⟩

theorem opt_sublist_singleton {α : Type} (c : Bool) (a : α) :
    List.Sublist (if c then [a] else []) [a] := by
  cases c <;> simp

theorem inv_opt_append_sublist {α : Type} (c : Bool) (a : α)
    {xs ys : List α} (h : List.Sublist xs ys) :
    List.Sublist ((if c then [] else [a]) ++ xs) (a :: ys) := by
  cases c
  · simpa using h.cons₂ a
  · simpa using h.cons a

theorem inv_opt_sublist_singleton {α : Type} (c : Bool) (a : α) :
    List.Sublist (if c then [] else [a]) [a] := by
  cases c <;> simp

/-- C6 counterexample: on a run with an e-commerce, customer-facing
context and no detected chatbot/search patterns, the enhanced generator
emits both the `ai-chatbot` and the `advanced-search` finding with the
same category `ai-ux`, so the output categories are not pairwise
distinct. -/
theorem c6_counterexample :
    ((EnhancedAnalyzerSimple.generateEnhancedSuggestions samplePatterns
        sampleCtx sampleDb).map fun s => s.category) =
      ["ai-ux", "ai-business", "ai-ux", "business"] ∧
    ¬ ((EnhancedAnalyzerSimple.generateEnhancedSuggestions samplePatterns
        sampleCtx sampleDb).map fun s => s.category).Nodup := by
  constructor
  · rfl
  · intro h
    rw [show ((EnhancedAnalyzerSimple.generateEnhancedSuggestions
        samplePatterns sampleCtx sampleDb).map fun s => s.category) =
        ["ai-ux", "ai-business", "ai-ux", "business"] from rfl] at h
    simp at h

/-- C6 (amended): within one run, the enhanced generator's finding *ids*
are pairwise distinct (each of its seven rules fires at most once), and
the replacement analyzer's finding categories are pairwise distinct (one
finding per pattern category); but two enhanced findings (`ai-chatbot`
and `advanced-search`) may share the category `ai-ux`. -/
theorem c6_distinct_ids :
    (∀ (p : EnhancedAnalyzerSimple.Patterns) (ctx : BCtx)
        (db : ApiDatabase),
      ((EnhancedAnalyzerSimple.generateEnhancedSuggestions p ctx db).map
          fun s => s.id).Nodup) ∧
    (∀ (db : ApiDatabase) (pm : CodeReplacementAnalyzer.PatternsMap),
      ((CodeReplacementAnalyzer.findReplacementOpportunities db pm).map
          fun o => o.category).Nodup) := by
  constructor
  · intro p ctx db
    rw [EnhancedAnalyzerSimple.generateEnhancedSuggestions]
    simp only [List.map_append, map_opt_singleton,
      EnhancedAnalyzerSimple.chatbotSugg, EnhancedAnalyzerSimple.dbOptSugg,
      EnhancedAnalyzerSimple.authSugg,
      EnhancedAnalyzerSimple.personalizationSugg,
      EnhancedAnalyzerSimple.reportingSugg,
      EnhancedAnalyzerSimple.searchSugg, EnhancedAnalyzerSimple.paymentSugg]
    simp only [List.append_assoc]
    refine List.Sublist.nodup
      (opt_append_sublist _ "ai-chatbot"
        (opt_append_sublist _ "database-optimization"
          (opt_append_sublist _ "auth-improvement"
            (opt_append_sublist _ "personalization"
              (opt_append_sublist _ "reporting-system"
                (opt_append_sublist _ "advanced-search"
                  (opt_sublist_singleton _ "payment-optimization")))))))
      (by decide)
  · intro db pm
    rw [CodeReplacementAnalyzer.findReplacementOpportunities]
    simp only [List.map_append, CodeReplacementAnalyzer.oppFor_categories]
    simp only [List.append_assoc]
    refine List.Sublist.nodup
      (inv_opt_append_sublist _ "payments"
        (inv_opt_append_sublist _ "auth"
          (inv_opt_append_sublist _ "analytics"
            (inv_opt_append_sublist _ "communication"
              (inv_opt_append_sublist _ "search"
                (inv_opt_append_sublist _ "media"
                  (inv_opt_sublist_singleton _ "monitoring")))))))
      (by decide)

set_option maxRecDepth 8000 in
/-- C5 counterexample: a codebase with eleven `req.body` lines in one
unvalidated file yields eleven security issues, so the deep analyzer's
security recommendation gets `effort = max(3, 11) = 11 > 10`. -/
theorem c5_counterexample :
    (DeepCodeAnalyzer.createSecurityRecommendation sampleDb
        [("server.js", insecureContent)]).effort = 11 ∧
    ¬ (DeepCodeAnalyzer.createSecurityRecommendation sampleDb
        [("server.js", insecureContent)]).effort ≤ 10 := by
  have hcount : DeepCodeAnalyzer.countSecurityIssues
      [("server.js", insecureContent)] = 11 := by decide
  have heff : (DeepCodeAnalyzer.createSecurityRecommendation sampleDb
      [("server.js", insecureContent)]).effort = 11 := by
    simp only [DeepCodeAnalyzer.createSecurityRecommendation, hcount,
      DeepCodeAnalyzer.secEffort]
    rw [max_eq_right (by norm_num)]
    norm_num
  refine ⟨heff, ?_⟩
  rw [heff]
  norm_num

/-- C5 (amended): impact and confidence bounds hold everywhere
(`0 ≤ impact ≤ 10`, `0 ≤ confidence ≤ 1` where a confidence exists), and
provider lists built through an explicit `slice` have length at most 3;
but the deep analyzer's security `effort = max(3, n)` is only bounded
below, and the enhanced `advanced-search` suggestion attaches the entire
`search` section of the catalog rather than at most three entries. -/
theorem c5_bounds :
    (∀ n : ℕ, 0 ≤ DeepCodeAnalyzer.secImpact n ∧
      DeepCodeAnalyzer.secImpact n ≤ 10 ∧
      3 ≤ DeepCodeAnalyzer.secEffort n) ∧
    (0 ≤ DeepCodeAnalyzer.secConfidence ∧
      DeepCodeAnalyzer.secConfidence ≤ 1) ∧
    (∀ (category : String) (fileCount : ℕ),
      0 ≤ CodeReplacementAnalyzer.calculateCategoryImpact category
            fileCount ∧
      CodeReplacementAnalyzer.calculateCategoryImpact category fileCount
          ≤ 10 ∧
      0 ≤ CodeReplacementAnalyzer.estimateReplacementEffort category
            fileCount ∧
      CodeReplacementAnalyzer.estimateReplacementEffort category fileCount
          ≤ 10) ∧
    (∀ recommendations : List Rec,
      (CodeReplacementAnalyzer.selectBestRecommendations
          recommendations).length ≤ 3) ∧
    (∀ (p : EnhancedAnalyzerSimple.Patterns) (ctx : BCtx)
        (db : ApiDatabase),
      ∀ s ∈ EnhancedAnalyzerSimple.generateEnhancedSuggestions p ctx db,
        (s.id ≠ "advanced-search" → s.providers.length ≤ 3) ∧
        (s.id = "advanced-search" →
          s.providers.length = db.search.length)) := by
  refine ⟨?_, ?_, ?_, ?_, ?_⟩
  · intro n
    refine ⟨le_min (by norm_num) (by positivity), min_le_left _ _,
      le_max_left _ _⟩
  · norm_num [DeepCodeAnalyzer.secConfidence]
  · intro category fileCount
    have hbi : (3 : ℚ) ≤ CodeReplacementAnalyzer.baseImpact category := by
      unfold CodeReplacementAnalyzer.baseImpact
      split_ifs <;> norm_num
    have hbe : (2 : ℚ) ≤ CodeReplacementAnalyzer.baseEffort category := by
      unfold CodeReplacementAnalyzer.baseEffort
      split_ifs <;> norm_num
    have hc : (0 : ℚ) ≤ (((fileCount / 2 : ℕ) : ℚ)) := by positivity
    have hc3 : (0 : ℚ) ≤ (((fileCount / 3 : ℕ) : ℚ)) := by positivity
    refine ⟨le_min (by norm_num) (by linarith), min_le_left _ _,
      le_min (by norm_num) (by linarith), min_le_left _ _⟩
  · intro recommendations
    simp only [CodeReplacementAnalyzer.selectBestRecommendations,
      List.length_take]
    exact min_le_left _ _
  · intro p ctx db s hs
    rw [EnhancedAnalyzerSimple.generateEnhancedSuggestions] at hs
    simp only [List.mem_append] at hs
    rcases hs with ((((((h | h) | h) | h) | h) | h) | h) <;>
      obtain rfl := mem_opt_singleton h
    · refine ⟨fun _ => ?_, fun hid => ?_⟩
      · simp only [EnhancedAnalyzerSimple.chatbotSugg, List.length_take]
        exact min_le_left _ _
      · simp [EnhancedAnalyzerSimple.chatbotSugg] at hid
    · exact ⟨fun _ => by simp [EnhancedAnalyzerSimple.dbOptSugg],
        fun hid => by simp [EnhancedAnalyzerSimple.dbOptSugg] at hid⟩
    · refine ⟨fun _ => ?_,
        fun hid => by simp [EnhancedAnalyzerSimple.authSugg] at hid⟩
      · simp only [EnhancedAnalyzerSimple.authSugg, List.length_take]
        have := min_le_left 2 db.authentication.length
        omega
    · refine ⟨fun _ => ?_, fun hid => by
        simp [EnhancedAnalyzerSimple.personalizationSugg] at hid⟩
      · simp only [EnhancedAnalyzerSimple.personalizationSugg,
          List.length_cons, List.length_take]
        have := min_le_left 2
          (db.ai_ml.filter fun r => r.category == "enterprise_ai").length
        omega
    · exact ⟨fun _ => by simp [EnhancedAnalyzerSimple.reportingSugg],
        fun hid => by simp [EnhancedAnalyzerSimple.reportingSugg] at hid⟩
    · refine ⟨fun hne => ?_, fun _ => ?_⟩
      · simp [EnhancedAnalyzerSimple.searchSugg] at hne
      · simp [EnhancedAnalyzerSimple.searchSugg]
    · refine ⟨fun _ => ?_,
        fun hid => by simp [EnhancedAnalyzerSimple.paymentSugg] at hid⟩
      · simp only [EnhancedAnalyzerSimple.paymentSugg, List.length_take]
        exact min_le_left _ _

/-- Witness for `c5_bounds` at concrete inputs. -/
theorem c5_bounds_witness :
    0 ≤ DeepCodeAnalyzer.secImpact 4 ∧ DeepCodeAnalyzer.secImpact 4 ≤ 10 ∧
    3 ≤ DeepCodeAnalyzer.secEffort 4 ∧
    0 ≤ CodeReplacementAnalyzer.calculateCategoryImpact "monitoring" 5 ∧
    (CodeReplacementAnalyzer.selectBestRecommendations []).length ≤ 3 ∧
    (EnhancedAnalyzerSimple.searchSugg sampleDb).providers.length =
      sampleDb.search.length := by
  obtain ⟨h1, _h2, h3, h4, h5⟩ := c5_bounds
  have hmem : EnhancedAnalyzerSimple.searchSugg sampleDb ∈
      EnhancedAnalyzerSimple.generateEnhancedSuggestions samplePatterns
        sampleCtx sampleDb := by
    rw [EnhancedAnalyzerSimple.generateEnhancedSuggestions]
    simp +decide [samplePatterns, sampleCtx]
  exact ⟨(h1 4).1, (h1 4).2.1, (h1 4).2.2, (h3 "monitoring" 5).1, h4 [],
    (h5 samplePatterns sampleCtx sampleDb
        (EnhancedAnalyzerSimple.searchSugg sampleDb) hmem).2 rfl⟩

/-- C1 counterexample: for the `ai-chatbot` finding (impact 9, effort 4,
confidence 0.95) the enhanced ranker stores the ordering key
`(9*2 - 4) * 0.95 = 13.3`, while the claimed formula
`impact*2 - effort + confidence*10 + contextFitBonus` gives `23.5` with
zero bonus — and the stored key is even strictly below `23.5`, so no
non-negative context-fit bonus can reconcile the two. -/
theorem c1_counterexample :
    ((EnhancedAnalyzerSimple.rankSuggestions [sampleSugg]).map
        fun s => s.score) = [133/10] ∧
    (133/10 : ℚ) ≠ 9 * 2 - 4 + (19/20) * 10 ∧
    (133/10 : ℚ) < 9 * 2 - 4 + (19/20) * 10 := by
  refine ⟨?_, by norm_num, by norm_num⟩
  norm_num [EnhancedAnalyzerSimple.rankSuggestions,
    EnhancedAnalyzerSimple.scored, jsSortDesc, sampleSugg]

/-- C1 (amended): each ranker has its own ordering key, computed from the
finding it decorates: the advanced analyzer's `rankWithMLScoring` stores
`round₁(impact*2 - effort*0.5 + confidence*10 + businessContextBonus)`;
the enhanced analyzer's ranker stores `(impact*2 - effort) * confidence`;
the basic analyzer's ranker stores
`(impact*2 - effort) / estimatedHours * 10`. -/
theorem c1_ranker_formulas :
    (∀ (l : List Sugg) (ctx : BCtx),
      ∀ s ∈ EnhancedAnalyzer.rankWithMLScoring l ctx,
        s.score = round1 (EnhancedAnalyzer.mlRawScore s ctx)) ∧
    (∀ l : List Sugg, ∀ s ∈ EnhancedAnalyzerSimple.rankSuggestions l,
      s.score = (s.impact * 2 - s.effort) * s.confidence) ∧
    (∀ l : List Sugg, ∀ s ∈ CodeAnalyzer.rankSuggestions l,
      s.score = (s.impact * 2 - s.effort) / s.estimatedHours * 10) := by
  refine ⟨?_, ?_, ?_⟩
  · intro l ctx s hs
    rw [EnhancedAnalyzer.rankWithMLScoring, jsSortDesc_mem] at hs
    obtain ⟨x, _, rfl⟩ := List.mem_map.1 hs
    simp [EnhancedAnalyzer.mlScored, EnhancedAnalyzer.mlRawScore,
      EnhancedAnalyzer.getBusinessContextBonus]
  · intro l s hs
    rw [EnhancedAnalyzerSimple.rankSuggestions, jsSortDesc_mem] at hs
    obtain ⟨x, _, rfl⟩ := List.mem_map.1 hs
    simp [EnhancedAnalyzerSimple.scored]
  · intro l s hs
    rw [CodeAnalyzer.rankSuggestions] at hs
    have hs' := List.mem_of_mem_take hs
    rw [jsSortDesc_mem] at hs'
    obtain ⟨x, _, rfl⟩ := List.mem_map.1 hs'
    simp [CodeAnalyzer.scored]

/-- Witness for `c1_ranker_formulas` at a concrete input. -/
theorem c1_ranker_formulas_witness :
    EnhancedAnalyzerSimple.scored sampleSugg ∈
      EnhancedAnalyzerSimple.rankSuggestions [sampleSugg] ∧
    (EnhancedAnalyzerSimple.scored sampleSugg).score =
      ((EnhancedAnalyzerSimple.scored sampleSugg).impact * 2 -
          (EnhancedAnalyzerSimple.scored sampleSugg).effort) *
        (EnhancedAnalyzerSimple.scored sampleSugg).confidence := by
  have hmem : EnhancedAnalyzerSimple.scored sampleSugg ∈
      EnhancedAnalyzerSimple.rankSuggestions [sampleSugg] := by
    rw [EnhancedAnalyzerSimple.rankSuggestions, jsSortDesc_mem]
    simp
  exact ⟨hmem, c1_ranker_formulas.2.1 [sampleSugg]
    (EnhancedAnalyzerSimple.scored sampleSugg) hmem⟩

/-- C7: every ranker returns a list sorted non-increasingly by its
ordering key; ties keep their input order (the sort is stable: filtering
any key value yields the input order); and in every run the returned list
has at most 10 entries — the basic ranker truncates with `slice(0, 10)`,
while the other rankers return everything their generator produced, which
is at most 7 findings. -/
theorem c7_rankers_sorted_stable_bounded :
    (∀ l : List Sugg,
      (CodeAnalyzer.rankSuggestions l).length ≤ 10 ∧
      (CodeAnalyzer.rankSuggestions l).Pairwise
        (fun a b => b.score ≤ a.score) ∧
      CodeAnalyzer.rankSuggestions l =
        (jsSortDesc (fun s => s.score) (l.map CodeAnalyzer.scored)).take
          10 ∧
      ∀ q : ℚ,
        ((jsSortDesc (fun s => s.score)
            (l.map CodeAnalyzer.scored)).filter fun s => s.score == q) =
          ((l.map CodeAnalyzer.scored).filter fun s => s.score == q)) ∧
    (∀ l : List Sugg,
      (EnhancedAnalyzerSimple.rankSuggestions l).Pairwise
        (fun a b => b.score ≤ a.score) ∧
      (EnhancedAnalyzerSimple.rankSuggestions l).length = l.length ∧
      ∀ q : ℚ,
        ((EnhancedAnalyzerSimple.rankSuggestions l).filter
            fun s => s.score == q) =
          ((l.map EnhancedAnalyzerSimple.scored).filter
            fun s => s.score == q)) ∧
    (∀ (p : EnhancedAnalyzerSimple.Patterns) (ctx : BCtx)
        (db : ApiDatabase),
      (EnhancedAnalyzerSimple.rankSuggestions
          (EnhancedAnalyzerSimple.generateEnhancedSuggestions p ctx
            db)).length ≤ 10) ∧
    (∀ opportunities : List CodeReplacementAnalyzer.Opp,
      (CodeReplacementAnalyzer.prioritizeRecommendations
          opportunities).Pairwise
        (fun a b => b.impact * 10 - b.effort ≤ a.impact * 10 - a.effort) ∧
      ∀ q : ℚ,
        ((jsSortDesc CodeReplacementAnalyzer.oppKey opportunities).filter
            fun o => CodeReplacementAnalyzer.oppKey o == q) =
          (opportunities.filter
            fun o => CodeReplacementAnalyzer.oppKey o == q)) ∧
    (∀ (db : ApiDatabase) (pm : CodeReplacementAnalyzer.PatternsMap),
      (CodeReplacementAnalyzer.prioritizeRecommendations
          (CodeReplacementAnalyzer.findReplacementOpportunities db
            pm)).length ≤ 10) := by
  refine ⟨?_, ?_, ?_, ?_, ?_⟩
  · intro l
    refine ⟨?_, ?_, rfl, fun q => jsSortDesc_filter_eq _ _ q⟩
    · simp only [CodeAnalyzer.rankSuggestions, List.length_take]
      exact min_le_left _ _
    · have h : (jsSortDesc (fun s : Sugg => s.score)
          (l.map CodeAnalyzer.scored)).Pairwise
          (keyDescRel fun s : Sugg => s.score) := jsSortDesc_sorted _ _
      exact List.Pairwise.sublist (List.take_sublist _ _) h
  · intro l
    refine ⟨?_, ?_, fun q => jsSortDesc_filter_eq _ _ q⟩
    · exact jsSortDesc_sorted (fun s : Sugg => s.score)
        (l.map EnhancedAnalyzerSimple.scored)
    · simp [EnhancedAnalyzerSimple.rankSuggestions, jsSortDesc_length]
  · intro p ctx db
    have hlen : (EnhancedAnalyzerSimple.rankSuggestions
        (EnhancedAnalyzerSimple.generateEnhancedSuggestions p ctx
          db)).length =
        (EnhancedAnalyzerSimple.generateEnhancedSuggestions p ctx
          db).length := by
      simp [EnhancedAnalyzerSimple.rankSuggestions, jsSortDesc_length]
    rw [hlen, EnhancedAnalyzerSimple.generateEnhancedSuggestions]
    simp only [List.length_append]
    have h1 := length_opt_singleton
      (!p.hasChatbot && (ctx.audience == "customer"))
      (EnhancedAnalyzerSimple.chatbotSugg db)
    have h2 := length_opt_singleton
      ((ctx.type == "internal_tool") && p.hasDatabase && !p.hasCaching)
      EnhancedAnalyzerSimple.dbOptSugg
    have h3 := length_opt_singleton
      ((ctx.type == "internal_tool") && p.hasUserManagement && !p.hasAuth)
      (EnhancedAnalyzerSimple.authSugg db)
    have h4 := length_opt_singleton
      (!p.hasRecommendations && (ctx.type == "ecommerce"))
      (EnhancedAnalyzerSimple.personalizationSugg db)
    have h5 := length_opt_singleton
      ((ctx.type == "internal_tool") && p.hasDataManagement &&
        !p.hasReporting)
      EnhancedAnalyzerSimple.reportingSugg
    have h6 := length_opt_singleton
      (!p.hasSearch && (ctx.audience == "customer"))
      (EnhancedAnalyzerSimple.searchSugg db)
    have h7 := length_opt_singleton
      ((ctx.type == "ecommerce") && !p.hasCheckout)
      (EnhancedAnalyzerSimple.paymentSugg db)
    omega
  · intro opportunities
    constructor
    · have hsorted : (jsSortDesc CodeReplacementAnalyzer.oppKey
          opportunities).Pairwise
          (keyDescRel CodeReplacementAnalyzer.oppKey) :=
        jsSortDesc_sorted _ _
      exact CodeReplacementAnalyzer.withPriority_pairwise
        (fun n m o o' h => by
          simpa [CodeReplacementAnalyzer.mkRanked,
            CodeReplacementAnalyzer.oppKey, keyDescRel] using h)
        0 _ hsorted
    · exact fun q => jsSortDesc_filter_eq _ _ q
  · intro db pm
    rw [CodeReplacementAnalyzer.prioritizeRecommendations,
      CodeReplacementAnalyzer.withPriority_length, jsSortDesc_length,
      CodeReplacementAnalyzer.findReplacementOpportunities]
    simp only [List.length_append]
    have h1 := CodeReplacementAnalyzer.oppFor_length_le "payments"
      db.payments pm.payments
    have h2 := CodeReplacementAnalyzer.oppFor_length_le "auth"
      db.authentication pm.auth
    have h3 := CodeReplacementAnalyzer.oppFor_length_le "analytics"
      db.analytics pm.analytics
    have h4 := CodeReplacementAnalyzer.oppFor_length_le "communication"
      db.communication pm.communication
    have h5 := CodeReplacementAnalyzer.oppFor_length_le "search"
      db.search pm.search
    have h6 := CodeReplacementAnalyzer.oppFor_length_le "media"
      db.media_storage pm.media
    have h7 := CodeReplacementAnalyzer.oppFor_length_le "monitoring"
      db.monitoring pm.monitoring
    omega

theorem oppFor_mem_of_ne_nil (category : String)
    (recommendations : List Rec)
    {ms : List CodeReplacementAnalyzer.MatchData} (h : ms ≠ []) :
    ∃ o ∈ CodeReplacementAnalyzer.oppFor category recommendations ms,
      o.category = category := by
  cases ms with
  | nil => exact absurd rfl h
  | cons m rest =>
    exact ⟨_, List.mem_singleton.2 rfl, rfl⟩

theorem oppFor_recs (category : String) (recommendations : List Rec)
    (ms : List CodeReplacementAnalyzer.MatchData) :
    ∀ o ∈ CodeReplacementAnalyzer.oppFor category recommendations ms,
      o.recommendations =
        CodeReplacementAnalyzer.selectBestRecommendations
          recommendations := by
  cases ms with
  | nil => simp [CodeReplacementAnalyzer.oppFor]
  | cons m rest =>
    intro o ho
    rw [CodeReplacementAnalyzer.oppFor, List.mem_singleton] at ho
    subst ho
    rfl

theorem selectBest_ne_nil (recommendations : List Rec)
    (h : recommendations ≠ []) :
    CodeReplacementAnalyzer.selectBestRecommendations recommendations
      ≠ [] := by
  intro hemp
  apply h
  have hlen : (CodeReplacementAnalyzer.selectBestRecommendations
      recommendations).length = 0 := by rw [hemp]; rfl
  rw [CodeReplacementAnalyzer.selectBestRecommendations,
    List.length_take, jsSortDesc_length] at hlen
  rcases Nat.min_eq_zero_iff.1 hlen with h3 | h0
  · exact absurd h3 (by decide)
  · exact List.eq_nil_of_length_eq_zero h0

theorem withPriorityChecked_error_of_mem :
    ∀ (n : ℕ) (l : List CodeReplacementAnalyzer.Opp),
      (∃ o ∈ l, o.recommendations = []) →
      CodeReplacementAnalyzer.withPriorityChecked n l =
        .error () := by
  intro n l
  induction l generalizing n with
  | nil => rintro ⟨o, ho, _⟩; simp at ho
  | cons o' rest ih =>
    rintro ⟨o, ho, hrec⟩
    rcases List.mem_cons.1 ho with rfl | ho
    · rw [CodeReplacementAnalyzer.withPriorityChecked,
        if_pos (by simp [hrec])]
    · rw [CodeReplacementAnalyzer.withPriorityChecked]
      by_cases hE : o'.recommendations.isEmpty = true
      · rw [if_pos hE]
      · rw [if_neg hE, ih (n + 1) ⟨o, ho, hrec⟩]

theorem withPriorityChecked_ok :
    ∀ (n : ℕ) (l : List CodeReplacementAnalyzer.Opp),
      (∀ o ∈ l, o.recommendations ≠ []) →
      CodeReplacementAnalyzer.withPriorityChecked n l =
        .ok (CodeReplacementAnalyzer.withPriority n l) := by
  intro n l
  induction l generalizing n with
  | nil => intro _; rfl
  | cons o rest ih =>
    intro h
    have hE : ¬o.recommendations.isEmpty = true := by
      simp only [List.isEmpty_iff]
      exact h o (List.mem_cons_self ..)
    rw [CodeReplacementAnalyzer.withPriorityChecked, if_neg hE,
      ih (n + 1) fun o' ho' => h o' (List.mem_cons_of_mem _ ho')]
    rfl

/-- C10 is refuted as stated: with a catalog whose monitoring section is
non-empty but whose analytics section is empty, a readable code file
containing `throw` fires the analytics error-handling pattern;
`prioritizeRecommendations` then reads `recommendations[0]` of the
analytics opportunity, whose array is empty, so the strategy throws a
`TypeError` and returns no suggestions at all — in particular no
monitoring finding — even though the monitoring section is non-empty and
a readable code file matches the baseline monitoring pattern. -/
theorem c10_counterexample :
    CodeReplacementAnalyzer.isCodeFile crashFile.ext = true ∧
    crashFile.content = Except.ok "const x = 1; throw e" ∧
    testPat CodeReplacementAnalyzer.monitoringBaseRegex
      "const x = 1; throw e" = true ∧
    sampleDbMonitoring.monitoring ≠ [] ∧
    CodeReplacementAnalyzer.analyzeCodeForReplacements
      sampleDbMonitoring [crashFile] = .error () := by
  refine ⟨by decide, rfl, by decide, by simp [sampleDbMonitoring], ?_⟩
  rw [CodeReplacementAnalyzer.analyzeCodeForReplacements,
    CodeReplacementAnalyzer.prioritizeRecommendationsChecked]
  apply withPriorityChecked_error_of_mem
  have hpm : (CodeReplacementAnalyzer.scanCodebase [crashFile]).analytics
      ≠ [] := by decide
  obtain ⟨o, ho, _⟩ := oppFor_mem_of_ne_nil "analytics"
    sampleDbMonitoring.analytics hpm
  have hrec : o.recommendations = [] := by
    rw [oppFor_recs "analytics" sampleDbMonitoring.analytics _ o ho]
    rfl
  refine ⟨o, (jsSortDesc_mem _).2 ?_, hrec⟩
  rw [CodeReplacementAnalyzer.findReplacementOpportunities]
  exact List.mem_append_left _ (List.mem_append_left _
    (List.mem_append_left _ (List.mem_append_left _
      (List.mem_append_right _ ho))))

/-- C10 (amended): whenever some readable code file matches
`/function|const|let|var|=>/i` (essentially any code at all) and every
catalog section the patterns can draw on is non-empty — as they all are
in the shipped dataset — the replacement analyzer returns successfully
and its suggestions include a finding with category `monitoring`; the
baseline monitoring detector fires on the presence of code, not on the
absence of monitoring. (If a matched category's section is empty the
strategy instead throws on `recommendations[0]` and yields nothing.) -/
theorem c10_monitoring_included_checked :
    ∀ (db : ApiDatabase) (files : List SFile),
      (∃ f ∈ files, CodeReplacementAnalyzer.isCodeFile f.ext = true ∧
        ∃ c, f.content = Except.ok c ∧
          testPat CodeReplacementAnalyzer.monitoringBaseRegex c = true) →
      db.payments ≠ [] → db.authentication ≠ [] → db.analytics ≠ [] →
      db.communication ≠ [] → db.search ≠ [] → db.media_storage ≠ [] →
      db.monitoring ≠ [] →
      ∃ rs, CodeReplacementAnalyzer.analyzeCodeForReplacements db files =
          Except.ok rs ∧
        "monitoring" ∈ rs.map fun r => r.category := by
  intro db files hex hpay hauth hana hcom hsea hmed hmon
  have hall : ∀ o ∈ jsSortDesc CodeReplacementAnalyzer.oppKey
      (CodeReplacementAnalyzer.findReplacementOpportunities db
        (CodeReplacementAnalyzer.scanCodebase files)),
      o.recommendations ≠ [] := by
    intro o ho
    rw [jsSortDesc_mem,
      CodeReplacementAnalyzer.findReplacementOpportunities] at ho
    simp only [List.mem_append] at ho
    rcases ho with ((((((h | h) | h) | h) | h) | h) | h)
    · rw [oppFor_recs "payments" db.payments _ o h]
      exact selectBest_ne_nil _ hpay
    · rw [oppFor_recs "auth" db.authentication _ o h]
      exact selectBest_ne_nil _ hauth
    · rw [oppFor_recs "analytics" db.analytics _ o h]
      exact selectBest_ne_nil _ hana
    · rw [oppFor_recs "communication" db.communication _ o h]
      exact selectBest_ne_nil _ hcom
    · rw [oppFor_recs "search" db.search _ o h]
      exact selectBest_ne_nil _ hsea
    · rw [oppFor_recs "media" db.media_storage _ o h]
      exact selectBest_ne_nil _ hmed
    · rw [oppFor_recs "monitoring" db.monitoring _ o h]
      exact selectBest_ne_nil _ hmon
  refine ⟨CodeReplacementAnalyzer.withPriority 0
    (jsSortDesc CodeReplacementAnalyzer.oppKey
      (CodeReplacementAnalyzer.findReplacementOpportunities db
        (CodeReplacementAnalyzer.scanCodebase files))), ?_, ?_⟩
  · rw [CodeReplacementAnalyzer.analyzeCodeForReplacements,
      CodeReplacementAnalyzer.prioritizeRecommendationsChecked]
    exact withPriorityChecked_ok 0 _ hall
  · obtain ⟨f, hf, hcode, c, hc, hmatch⟩ := hex
    simp only [CodeReplacementAnalyzer.monitoringBaseRegex] at hmatch
    have hm : ({ file := f.path,
                 current := "Grundläggande kod utan övervakning",
                 weakness :=
                   "Ingen felspårning eller prestandaövervakning" } :
          CodeReplacementAnalyzer.MatchData) ∈
        CodeReplacementAnalyzer.fileCatMatches
          CodeReplacementAnalyzer.monitoringPatterns f := by
      simp only [CodeReplacementAnalyzer.fileCatMatches, hcode, hc,
        if_true]
      refine List.mem_filterMap.2
        ⟨⟨[["function"], ["const"], ["let"], ["var"], ["=>"]],
          "Grundläggande kod utan övervakning",
          "Ingen felspårning eller prestandaövervakning"⟩, ?_, ?_⟩
      · simp [CodeReplacementAnalyzer.monitoringPatterns]
      · simp [hmatch]
    have hne : (CodeReplacementAnalyzer.scanCodebase files).monitoring
        ≠ [] := by
      simp only [CodeReplacementAnalyzer.scanCodebase]
      exact List.ne_nil_of_mem (List.mem_flatMap.2 ⟨f, hf, hm⟩)
    obtain ⟨o, ho, hocat⟩ := oppFor_mem_of_ne_nil "monitoring"
      db.monitoring hne
    have hoall : o ∈ CodeReplacementAnalyzer.findReplacementOpportunities
        db (CodeReplacementAnalyzer.scanCodebase files) := by
      rw [CodeReplacementAnalyzer.findReplacementOpportunities]
      exact List.mem_append.2 (Or.inr ho)
    have hsort : o ∈ jsSortDesc CodeReplacementAnalyzer.oppKey
        (CodeReplacementAnalyzer.findReplacementOpportunities db
          (CodeReplacementAnalyzer.scanCodebase files)) :=
      (jsSortDesc_mem _).2 hoall
    obtain ⟨r, hr, hcat⟩ :=
      CodeReplacementAnalyzer.withPriority_mem_of_mem 0 _ o hsort
    exact List.mem_map.2 ⟨r, hr, by rw [hcat, hocat]⟩

/-- Witness for `c10_monitoring_included_checked` at a concrete run: one
readable `.js` file containing `const x = 1` and a catalog with one
provider in every section. -/
theorem c10_monitoring_included_checked_witness :
    ∃ rs, CodeReplacementAnalyzer.analyzeCodeForReplacements fullDb
        [codeFile] = Except.ok rs ∧
      "monitoring" ∈ rs.map fun r => r.category :=
  c10_monitoring_included_checked fullDb [codeFile]
    ⟨codeFile, List.mem_singleton.2 rfl, by decide, "const x = 1", rfl,
      by decide⟩
    (by simp [fullDb]) (by simp [fullDb]) (by simp [fullDb])
    (by simp [fullDb]) (by simp [fullDb]) (by simp [fullDb])
    (by simp [fullDb])
